import Mathlib

/-!
Shallow embedding of the standcup match-making core
(`src/standcup/models.py`, `src/standcup/utils.py`, `src/standcup/matchmaker.py`).

Python floats are modelled as exact rationals (`ℚ`); Python dicts
(insertion ordered, unique keys) are modelled as association lists;
pandas dataframes are modelled as lists of records.
-/

namespace Standcup

/-- Embeds `models.Player`: identifier and display name. -/
structure Player where
  id : String
  name : String
deriving Repr, DecidableEq

/-- Embeds `models.Team`: a list of player identifiers. -/
structure Team where
  players : List String
deriving Repr, DecidableEq

/-- Embeds `models.Match` (fields the core reads: teams and scores). -/
structure SMatch where
  id : String
  team1 : Team
  team2 : Team
  team1_score : ℕ
  team2_score : ℕ
deriving Repr, DecidableEq

/-- Embeds `Match.winner_team`: `some 1` if team1 wins, `some 2` if team2 wins, `none` on a tie. -/
def SMatch.winner_team (m : SMatch) : Option ℕ :=
  if m.team1_score > m.team2_score then some 1
  else if m.team2_score > m.team1_score then some 2
  else none

/-- Embeds `models.StandcupData`: the roster and the match history
(`matchList` embeds the source field `matches`, a reserved word in Lean). -/
structure StandcupData where
  players : List Player
  matchList : List SMatch
deriving Repr, DecidableEq

/-- Strict lexicographic order on code-point sequences, embedding Python string
comparison (used for sorting, where the builtin `String` order of Lean is not
kernel reducible). -/
def lexLt : List Char → List Char → Bool
  | _, [] => false
  | [], _ :: _ => true
  | c :: cs, d :: ds => c.toNat < d.toNat || (c.toNat = d.toNat && lexLt cs ds)

/-- Embeds Python `a < b` on strings: lexicographic on code points. -/
def strLt (a b : String) : Bool := lexLt a.data b.data

/-- Embeds Python `a <= b` on strings. -/
def strLe (a b : String) : Bool := strLt a b || a == b

/-- Embeds one row of `StandcupData.to_player_match_df` (the columns the core aggregates). -/
structure PlayerMatchRow where
  player_id : String
  match_id : String
  team : ℕ
  goals_for : ℕ
  goals_against : ℕ
  won : Bool
  lost : Bool
  tied : Bool
deriving Repr, DecidableEq

/-- Embeds `StandcupData.to_player_match_df`: one row per player per match,
team1 rows first, then team2 rows, in match order. -/
def to_player_match (data : StandcupData) : List PlayerMatchRow :=
  data.matchList.flatMap (fun m =>
    m.team1.players.map (fun pid =>
      { player_id := pid, match_id := m.id, team := 1,
        goals_for := m.team1_score, goals_against := m.team2_score,
        won := decide (m.winner_team = some 1),
        lost := decide (m.winner_team = some 2),
        tied := decide (m.winner_team = none) })
    ++ m.team2.players.map (fun pid =>
      { player_id := pid, match_id := m.id, team := 2,
        goals_for := m.team2_score, goals_against := m.team1_score,
        won := decide (m.winner_team = some 2),
        lost := decide (m.winner_team = some 1),
        tied := decide (m.winner_team = none) }))

/-- Rounds a rational to the nearest integer, ties to even (the rounding used by
pandas `.round` and numpy, idealised over exact rationals). -/
def roundHalfEven (q : ℚ) : ℤ :=
  let f := ⌊q⌋
  let r := q - f
  if r < 1/2 then f
  else if 1/2 < r then f + 1
  else if f % 2 = 0 then f else f + 1

/-- Embeds pandas `.round(1)`: round to one decimal place, ties to even. -/
def round1 (q : ℚ) : ℚ := (roundHalfEven (q * 10) : ℚ) / 10

/-- Embeds one row of the dataframe produced by `utils.calculate_player_stats`. -/
structure PlayerStats where
  player_id : String
  matches_played : ℕ
  wins : ℕ
  losses : ℕ
  ties : ℕ
  goals_for : ℕ
  goals_against : ℕ
  win_rate : ℚ
  goal_difference : ℤ
deriving Repr, DecidableEq

/-- Aggregates the player-match rows of one player into a `PlayerStats` record,
as the pandas `groupby("player_id").agg(...)` block of `calculate_player_stats` does:
`matches_played = count`, `wins/losses/ties = sum` of the Boolean columns,
`win_rate = (wins / matches_played * 100).round(1)`,
`goal_difference = goals_for - goals_against`. -/
def mkStats (p : String) (rows : List PlayerMatchRow) : PlayerStats :=
  let mp := rows.length
  let wins := (rows.filter (fun r => r.won)).length
  let gf := (rows.map (fun r => r.goals_for)).sum
  let ga := (rows.map (fun r => r.goals_against)).sum
  { player_id := p,
    matches_played := mp,
    wins := wins,
    losses := (rows.filter (fun r => r.lost)).length,
    ties := (rows.filter (fun r => r.tied)).length,
    goals_for := gf,
    goals_against := ga,
    win_rate := round1 ((wins : ℚ) / (mp : ℚ) * 100),
    goal_difference := (gf : ℤ) - (ga : ℤ) }

/-- Group keys of the `groupby("player_id")`: the distinct player ids observed in
the player-match rows, in ascending order (pandas sorts group keys). -/
def statsPlayers (data : StandcupData) : List String :=
  (((to_player_match data).map (fun r => r.player_id)).dedup).mergeSort (fun a b => strLe a b)

/-- Embeds `utils.calculate_player_stats`: one `PlayerStats` record per observed player. -/
def calculate_player_stats (data : StandcupData) : List PlayerStats :=
  (statsPlayers data).map (fun p =>
    mkStats p ((to_player_match data).filter (fun r => r.player_id == p)))

/-- Embeds the per-row strength formula of `matchmaker.calculate_player_strengths`
(lines 30 to 39), prior to clamping: blend of win rate and goal contribution,
damped by the experience weight. -/
def strengthFormula (win_rate : ℚ) (matches_played : ℕ) (goal_difference : ℤ) : ℚ :=
  let wr := win_rate / 100
  let goal_diff_per_match := (goal_difference : ℚ) / ((max matches_played 1 : ℕ) : ℚ)
  let experience_weight := min ((matches_played : ℚ) / 10) 1
  let base_strength := wr * 0.7 + (min (goal_diff_per_match / 3) 0.3 + 0.5) * 0.3
  base_strength * experience_weight + 0.5 * (1 - experience_weight)

/-- Embeds the clamp `max(0.1, min(1.0, strength))` of line 41. -/
def clamp01 (s : ℚ) : ℚ := max 0.1 (min 1.0 s)

/-- Embeds `matchmaker.calculate_player_strengths`: the strengths dict, one entry
per stats row, keyed by player id. -/
def calculate_player_strengths (data : StandcupData) : List (String × ℚ) :=
  (calculate_player_stats data).map (fun s =>
    (s.player_id, clamp01 (strengthFormula s.win_rate s.matches_played s.goal_difference)))

/-- Python dict lookup on an association list (first binding wins; keys are unique
in every dict the code builds). -/
def alookup {β : Type} : List (String × β) → String → Option β
  | [], _ => none
  | (k, v) :: rest, a => if k = a then some v else alookup rest a

/-- Embeds the inner dict of a `dict[str, dict[str, int]]` pairing count table. -/
abbrev CountMap := List (String × ℕ)

/-- Embeds the outer dict of a `dict[str, dict[str, int]]` pairing count table. -/
abbrev NestedMap := List (String × CountMap)

/-- Embeds `d.setdefault(k, 0); d[k] += 1` on an inner count dict. -/
def bumpInner : CountMap → String → CountMap
  | [], k => [(k, 1)]
  | (k, v) :: rest, a => if k = a then (k, v + 1) :: rest else (k, v) :: bumpInner rest a

/-- Embeds `d.setdefault(k1, {}).setdefault(k2, 0); d[k1][k2] += 1` on a nested dict. -/
def bump : NestedMap → String → String → NestedMap
  | [], k1, k2 => [(k1, [(k2, 1)])]
  | (k, inner) :: rest, k1, k2 =>
      if k = k1 then (k, bumpInner inner k2) :: rest else (k, inner) :: bump rest k1 k2

/-- Embeds the pair of increments the analyzer performs for a pairing:
`count[p1][p2] += 1` then `count[p2][p1] += 1` (with setdefaults). -/
def bumpBoth (m : NestedMap) (p1 p2 : String) : NestedMap :=
  bump (bump m p1 p2) p2 p1

/-- Embeds the teammate-count update of `analyze_pairing_history` for one team:
only teams of exactly 2 players contribute. -/
def addTeammates (tc : NestedMap) (team : List String) : NestedMap :=
  match team with
  | [p1, p2] => bumpBoth tc p1 p2
  | _ => tc

/-- Embeds the opponent-count update of `analyze_pairing_history` for one match:
every cross-team pair contributes, in the nested loop order of lines 62 to 67. -/
def addOpponents (oc : NestedMap) (team1 team2 : List String) : NestedMap :=
  team1.foldl (fun acc p1 => team2.foldl (fun acc2 p2 => bumpBoth acc2 p1 p2) acc) oc

/-- Embeds the dict `{"teammates": ..., "opponents": ...}` the analyzer returns. -/
structure PairingHistory where
  teammates : NestedMap
  opponents : NestedMap
deriving Repr, DecidableEq

/-- Embeds `matchmaker.analyze_pairing_history`: teammate and opponent
co-occurrence counts accumulated over the match history. -/
def analyze_pairing_history (data : StandcupData) : PairingHistory :=
  data.matchList.foldl
    (fun ph m =>
      { teammates := addTeammates (addTeammates ph.teammates m.team1.players) m.team2.players,
        opponents := addOpponents ph.opponents m.team1.players m.team2.players })
    { teammates := [], opponents := [] }

/-- Embeds the Python lookup `d.get(p1, dict()).get(p2, 0)` on a nested count dict:
the empty inner dict is the default at the first level, 0 at the second. -/
def getCount (m : NestedMap) (p1 p2 : String) : ℕ :=
  match alookup ((alookup m p1).getD []) p2 with
  | some v => v
  | none => 0

/-- Nested lookup returning `none` when either key is missing (entry existence). -/
def find2 (m : NestedMap) (p1 p2 : String) : Option ℕ :=
  match alookup m p1 with
  | none => none
  | some inner => alookup inner p2

/-- Embeds f-string formatting `:.2f`: two decimal places, sign of the value. -/
def format2 (q : ℚ) : String :=
  let n : ℤ := roundHalfEven (q * 100)
  let a : ℕ := n.natAbs
  let frac : ℕ := a % 100
  (if q < 0 then "-" else "") ++ toString (a / 100) ++ "." ++
    (if frac < 10 then "0" else "") ++ toString frac

/-- Embeds the balance sub-score of `score_match_quality` (lines 84 to 85):
`1 - abs(t1 - t2) / max(max(t1, t2), 1.0)`. -/
def balanceScore (s1 s2 : ℚ) : ℚ := 1 - |s1 - s2| / max (max s1 s2) 1

/-- Embeds `sum(strengths[p] for p in team)`. -/
def teamStrength (strengths : List (String × ℚ)) (team : List String) : ℚ :=
  (team.map (fun p => (alookup strengths p).getD 0)).sum

/-- Embeds `matchmaker._calculate_variety_score`: penalises candidate pairings whose
players met often before, normalised by `max_pairings * 4`. -/
def calculate_variety_score (team1 team2 : List String) (ph : PairingHistory)
    (max_pairings : ℕ) : ℚ :=
  let teammatePairings : ℕ :=
    ([team1, team2].map (fun team =>
      match team with
      | [p1, p2] => getCount ph.teammates p1 p2
      | _ => 0)).sum
  let opponentPairings : ℕ :=
    (team1.map (fun p1 => (team2.map (fun p2 => getCount ph.opponents p1 p2)).sum)).sum
  let total_pairings := teammatePairings + opponentPairings
  if max_pairings > 0 then
    max 0.1 (1 - (total_pairings : ℚ) / ((max_pairings : ℚ) * 4))
  else 1

/-- Embeds `matchmaker.score_match_quality`: the missing-strength fallback, the
balance and variety sub-scores, their 70/30 blend and the rationale string. -/
def score_match_quality (team1 team2 : List String) (strengths : List (String × ℚ))
    (ph : PairingHistory) (max_pairings : ℕ) : ℚ × String :=
  if ¬ ((team1 ++ team2).all (fun p => (alookup strengths p).isSome)) then
    (0, "Missing player strength data")
  else
    let team1_strength := teamStrength strengths team1
    let team2_strength := teamStrength strengths team2
    let balance_score := balanceScore team1_strength team2_strength
    let variety_score := calculate_variety_score team1 team2 ph max_pairings
    let final_score := balance_score * 0.7 + variety_score * 0.3
    (final_score,
      "Team balance: " ++ format2 balance_score ++ ", Variety: " ++ format2 variety_score)

/-- Maximum of the values of an inner count dict, 0 when empty. -/
def innerMax (c : CountMap) : ℕ := (c.map (fun kv => kv.2)).foldr max 0

/-- Embeds `matchmaker._get_max_pairings`: the largest single count across both
nested dicts, 0 for an empty history. -/
def get_max_pairings (ph : PairingHistory) : ℕ :=
  let tmax := if ph.teammates.isEmpty then 0
    else (ph.teammates.map (fun kv => innerMax kv.2)).foldr max 0
  let omax := if ph.opponents.isEmpty then 0
    else (ph.opponents.map (fun kv => innerMax kv.2)).foldr max 0
  max tmax omax

/-- Embeds `matchmaker.MatchSuggestion`. -/
structure MatchSuggestion where
  team1_players : List String
  team2_players : List String
  score : ℚ
  reasoning : String
deriving Repr, DecidableEq

/-- Embeds `itertools.combinations(l, 2)`: all unordered pairs, in Python's order. -/
def combinations2 {α : Type} : List α → List (α × α)
  | [] => []
  | x :: xs => xs.map (fun y => (x, y)) ++ combinations2 xs

/-- Embeds `matchmaker._generate_singles_suggestions`: one candidate per unordered
pair of available players. -/
def generate_singles_suggestions (available_players : List String)
    (strengths : List (String × ℚ)) (ph : PairingHistory) (max_pairings : ℕ) :
    List MatchSuggestion :=
  (combinations2 available_players).map (fun pq =>
    let sr := score_match_quality [pq.1] [pq.2] strengths ph max_pairings
    { team1_players := [pq.1], team2_players := [pq.2], score := sr.1, reasoning := sr.2 })

/-- Embeds Python `tuple(sorted(team))` for a 2-player team. -/
def normTeam (t : String × String) : String × String :=
  if strLe t.1 t.2 then t else (t.2, t.1)

/-- Lexicographic comparison Python uses to sort a pair of 2-tuples. -/
def pairLE (x y : String × String) : Bool :=
  strLt x.1 y.1 || (x.1 == y.1 && strLe x.2 y.2)

/-- Embeds the dedup signature of `_generate_doubles_suggestions` (lines 172 to 174):
sort each team, then sort the pair of sorted teams. -/
def normSig (t1 t2 : String × String) : (String × String) × (String × String) :=
  let n1 := normTeam t1
  let n2 := normTeam t2
  if pairLE n1 n2 then (n1, n2) else (n2, n1)

/-- Inner loop of `_generate_doubles_suggestions` over the team2 candidates for a
fixed team1, threading the `seen_matches` set. -/
def doublesInner (t1 : String × String) (team2s : List (String × String))
    (strengths : List (String × ℚ)) (ph : PairingHistory) (max_pairings : ℕ)
    (seen : List ((String × String) × (String × String))) :
    List MatchSuggestion × List ((String × String) × (String × String)) :=
  match team2s with
  | [] => ([], seen)
  | t2 :: rest =>
    if ([t1.1, t1.2, t2.1, t2.2].dedup).length = 4 then
      let sig := normSig t1 t2
      if sig ∈ seen then doublesInner t1 rest strengths ph max_pairings seen
      else
        let sr := score_match_quality [t1.1, t1.2] [t2.1, t2.2] strengths ph max_pairings
        let out := doublesInner t1 rest strengths ph max_pairings (sig :: seen)
        ({ team1_players := [t1.1, t1.2], team2_players := [t2.1, t2.2],
           score := sr.1, reasoning := sr.2 } :: out.1, out.2)
    else doublesInner t1 rest strengths ph max_pairings seen

/-- Outer loop of `_generate_doubles_suggestions` over the team1 candidates. -/
def doublesOuter (available_players : List String) (t1s : List (String × String))
    (strengths : List (String × ℚ)) (ph : PairingHistory) (max_pairings : ℕ)
    (seen : List ((String × String) × (String × String))) :
    List MatchSuggestion × List ((String × String) × (String × String)) :=
  match t1s with
  | [] => ([], seen)
  | t1 :: rest =>
    let remaining := available_players.filter (fun p => ¬ (p = t1.1 ∨ p = t1.2))
    let inner := doublesInner t1 (combinations2 remaining) strengths ph max_pairings seen
    let outer := doublesOuter available_players rest strengths ph max_pairings inner.2
    (inner.1 ++ outer.1, outer.2)

/-- Embeds `matchmaker._generate_doubles_suggestions`: enumerate team1 pairs, fill
team2 from the remaining players, dedup mirrored splits by normalised signature. -/
def generate_doubles_suggestions (available_players : List String)
    (strengths : List (String × ℚ)) (ph : PairingHistory) (max_pairings : ℕ) :
    List MatchSuggestion :=
  (doublesOuter available_players (combinations2 available_players)
    strengths ph max_pairings []).1

/-- Embeds `matchmaker.generate_match_suggestions`: guards, strength and pairing
computation, enumeration, stable descending sort by score, top-N truncation. -/
def generate_match_suggestions (data : StandcupData) (available_players : List String)
    (match_type : String) (num_suggestions : ℕ) : List MatchSuggestion :=
  if available_players.length < 2 then []
  else
    let required_players := if match_type = "singles" then 2 else 4
    if available_players.length < required_players then []
    else
      let strengths := calculate_player_strengths data
      let ph := analyze_pairing_history data
      let max_pairings := get_max_pairings ph
      let suggestions :=
        if match_type = "singles" then
          generate_singles_suggestions available_players strengths ph max_pairings
        else
          generate_doubles_suggestions available_players strengths ph max_pairings
      (suggestions.mergeSort (fun a b => decide (b.score ≤ a.score))).take num_suggestions

/-! Derived observables the specification talks about. -/

/-- The player-match rows of one player (the group the `groupby` forms for `p`). -/
def playerRows (data : StandcupData) (p : String) : List PlayerMatchRow :=
  (to_player_match data).filter (fun r => r.player_id == p)

/-- Matches played by `p`, counted directly from the player-match rows. -/
def matchesOf (data : StandcupData) (p : String) : ℕ := (playerRows data p).length

/-- Wins of `p`, counted directly from the player-match rows. -/
def winsOf (data : StandcupData) (p : String) : ℕ :=
  ((playerRows data p).filter (fun r => r.won)).length

/-- Goal difference of `p`, counted directly from the player-match rows. -/
def goalDiffOf (data : StandcupData) (p : String) : ℤ :=
  let gf : ℕ := ((playerRows data p).map (fun r => r.goals_for)).sum
  let ga : ℕ := ((playerRows data p).map (fun r => r.goals_against)).sum
  (gf : ℤ) - (ga : ℤ)

/-- Sum of `PlayerStats.wins` over all players, as the spec's testable property sums it. -/
def totalWins (data : StandcupData) : ℕ :=
  ((calculate_player_stats data).map (fun s => s.wins)).sum

/-- Number of matches in the history that have a strict winner. -/
def strictWinnerMatches (data : StandcupData) : ℕ :=
  (data.matchList.filter (fun m => m.winner_team.isSome)).length

/-- Contribution of one match to the total win count: the size of the winning
team, 0 on a tie. -/
def winWeight (m : SMatch) : ℕ :=
  if m.winner_team = some 1 then m.team1.players.length
  else if m.winner_team = some 2 then m.team2.players.length
  else 0

/-- Modelled from the spec (section 4.2 and the C2 claim text), for comparison with
the code: the claimed strength of a player, computed with the UNROUNDED win rate
`win_rate_frac = (100 * wins / matches_played) / 100`. -/
def specStrengthC2 (wins matches_played : ℕ) (goal_difference : ℤ) : ℚ :=
  let win_rate_frac := (100 * (wins : ℚ) / (matches_played : ℚ)) / 100
  let goal_diff_per_match := (goal_difference : ℚ) / ((max matches_played 1 : ℕ) : ℚ)
  let experience_weight := min ((matches_played : ℚ) / 10) 1
  let base_strength :=
    win_rate_frac * 0.7 + (min (goal_diff_per_match / 3) 0.3 + 0.5) * 0.3
  let strength := base_strength * experience_weight + 0.5 * (1 - experience_weight)
  max 0.1 (min 1.0 strength)

/-- Symmetry of a nested count table, entry existence included. -/
def SymmMap (m : NestedMap) : Prop := ∀ x y, find2 m x y = find2 m y x

/-! Concrete data used by counterexamples and witnesses. -/

/-- Builder for a concrete match. -/
def mkMatch (i : String) (t1 t2 : List String) (s1 s2 : ℕ) : SMatch :=
  { id := i, team1 := { players := t1 }, team2 := { players := t2 },
    team1_score := s1, team2_score := s2 }

/-- A history of three singles matches between A and B: A wins one of three. -/
def exampleData : StandcupData :=
  { players := [],
    matchList := [mkMatch "m1" ["A"] ["B"] 1 0, mkMatch "m2" ["A"] ["B"] 0 1,
      mkMatch "m3" ["A"] ["B"] 0 1] }

/-- A history with a single doubles match: A and B beat C and D 1:0. -/
def exampleDoubles : StandcupData :=
  { players := [],
    matchList := [mkMatch "d1" ["A", "B"] ["C", "D"] 1 0] }

/-- A data container with no matches at all. -/
def emptyData : StandcupData := { players := [], matchList := [] }

/-! Helper lemmas about association-list lookup. -/

theorem alookup_keyed {β : Type} (ps : List String) (g : String → β) (p : String) :
    alookup (ps.map (fun q => (q, g q))) p = if p ∈ ps then some (g p) else none := by
  induction ps with
  | nil => simp [alookup]
  | cons q t ih =>
    simp only [List.map_cons, alookup]
    by_cases hq : q = p
    · subst hq; simp
    · rw [if_neg hq, ih]
      by_cases hm : p ∈ t
      · rw [if_pos hm, if_pos (List.mem_cons_of_mem _ hm)]
      · rw [if_neg hm, if_neg ?_]
        intro hc
        rcases List.mem_cons.mp hc with hc | hc
        · exact hq hc.symm
        · exact hm hc

/-! Helper lemmas about the clamp and the balance score. -/

theorem clamp01_bounds (s : ℚ) : 0.1 ≤ clamp01 s ∧ clamp01 s ≤ 1 := by
  unfold clamp01
  refine ⟨le_max_left _ _, max_le (by norm_num) ?_⟩
  calc min 1.0 s ≤ 1.0 := min_le_left _ _
    _ = 1 := by norm_num

theorem clamp01_mono {s t : ℚ} (h : s ≤ t) : clamp01 s ≤ clamp01 t :=
  max_le_max le_rfl (min_le_min le_rfl h)

theorem balanceScore_bounds {s1 s2 : ℚ} (h1 : 0 ≤ s1) (h2 : 0 ≤ s2) :
    0 ≤ balanceScore s1 s2 ∧ balanceScore s1 s2 ≤ 1 := by
  unfold balanceScore
  have hdpos : (0 : ℚ) < max (max s1 s2) 1 :=
    lt_of_lt_of_le one_pos (le_max_right _ _)
  constructor
  · have habs : |s1 - s2| ≤ max (max s1 s2) 1 := by
      rw [abs_sub_le_iff]
      constructor
      · have := le_max_left s1 s2
        have := le_max_left (max s1 s2) 1
        linarith
      · have := le_max_right s1 s2
        have := le_max_left (max s1 s2) 1
        linarith
    have hq := (div_le_one hdpos).mpr habs
    linarith
  · have hq : 0 ≤ |s1 - s2| / max (max s1 s2) 1 := div_nonneg (abs_nonneg _) hdpos.le
    linarith

theorem teamStrength_nonneg (strengths : List (String × ℚ)) (team : List String)
    (h : ∀ p ∈ team, ∃ q, alookup strengths p = some q ∧ 0 < q ∧ q ≤ 1) :
    0 ≤ teamStrength strengths team := by
  apply List.sum_nonneg
  intro x hx
  rcases List.mem_map.mp hx with ⟨p, hp, rfl⟩
  rcases h p hp with ⟨q, hq, hq0, _⟩
  rw [hq]
  exact le_of_lt (by simpa using hq0)

/-! Helper lemmas about the strengths pipeline. -/

theorem strengths_keyed (data : StandcupData) :
    calculate_player_strengths data =
      (statsPlayers data).map (fun q =>
        (q, clamp01 (strengthFormula
          (round1 ((winsOf data q : ℚ) / (matchesOf data q : ℚ) * 100))
          (matchesOf data q) (goalDiffOf data q)))) := by
  unfold calculate_player_strengths calculate_player_stats
  rw [List.map_map]
  rfl

theorem lookup_strength (data : StandcupData) (p : String) (h : p ∈ statsPlayers data) :
    alookup (calculate_player_strengths data) p =
      some (clamp01 (strengthFormula
        (round1 ((winsOf data p : ℚ) / (matchesOf data p : ℚ) * 100))
        (matchesOf data p) (goalDiffOf data p))) := by
  rw [strengths_keyed, alookup_keyed, if_pos h]

theorem lookup_strength_none (data : StandcupData) (p : String)
    (h : p ∉ statsPlayers data) :
    alookup (calculate_player_strengths data) p = none := by
  rw [strengths_keyed, alookup_keyed, if_neg h]

theorem statsPlayers_mem_iff (data : StandcupData) (p : String) :
    p ∈ statsPlayers data ↔
      ∃ m ∈ data.matchList, p ∈ m.team1.players ∨ p ∈ m.team2.players := by
  unfold statsPlayers
  rw [List.mem_mergeSort, List.mem_dedup, List.mem_map]
  constructor
  · rintro ⟨r, hr, rfl⟩
    unfold to_player_match at hr
    rcases List.mem_flatMap.mp hr with ⟨m, hm, hr2⟩
    rcases List.mem_append.mp hr2 with hr3 | hr3 <;>
      rcases List.mem_map.mp hr3 with ⟨pid, hpid, rfl⟩
    · exact ⟨m, hm, Or.inl hpid⟩
    · exact ⟨m, hm, Or.inr hpid⟩
  · rintro ⟨m, hm, hp | hp⟩
    · unfold to_player_match
      exact ⟨_, List.mem_flatMap.mpr
        ⟨m, hm, List.mem_append_left _ (List.mem_map_of_mem _ hp)⟩, rfl⟩
    · unfold to_player_match
      exact ⟨_, List.mem_flatMap.mpr
        ⟨m, hm, List.mem_append_right _ (List.mem_map_of_mem _ hp)⟩, rfl⟩

/-! Claim C5. -/

/-- C5: for every match history, a player has a strength entry iff they appear in at
least one match of the history, and every strength value assigned by
`calculate_player_strengths` lies in the interval [0.1, 1.0]. -/
theorem spec_C5_strength_bounds_and_domain (data : StandcupData) (p : String) :
    ((alookup (calculate_player_strengths data) p).isSome ↔
      ∃ m ∈ data.matchList, p ∈ m.team1.players ∨ p ∈ m.team2.players) ∧
    (∀ q, alookup (calculate_player_strengths data) p = some q → 0.1 ≤ q ∧ q ≤ 1) := by
  constructor
  · rw [← statsPlayers_mem_iff]
    by_cases h : p ∈ statsPlayers data
    · rw [lookup_strength data p h]
      simp [h]
    · rw [lookup_strength_none data p h]
      simp [h]
  · intro q hq
    by_cases h : p ∈ statsPlayers data
    · rw [lookup_strength data p h] at hq
      have hb := clamp01_bounds (strengthFormula
        (round1 ((winsOf data p : ℚ) / (matchesOf data p : ℚ) * 100))
        (matchesOf data p) (goalDiffOf data p))
      rcases Option.some_inj.mp hq with rfl
      exact hb
    · rw [lookup_strength_none data p h] at hq
      cases hq

/-! Claim C7. -/

/-- C7: for any two teams all of whose players have strength entries in (0, 1],
the balance sub-score computed inside `score_match_quality` lies in [0, 1]. -/
theorem spec_C7_balance_score_bounds (team1 team2 : List String)
    (strengths : List (String × ℚ))
    (h : ∀ p ∈ team1 ++ team2, ∃ q, alookup strengths p = some q ∧ 0 < q ∧ q ≤ 1) :
    0 ≤ balanceScore (teamStrength strengths team1) (teamStrength strengths team2) ∧
      balanceScore (teamStrength strengths team1) (teamStrength strengths team2) ≤ 1 := by
  have h1 : 0 ≤ teamStrength strengths team1 :=
    teamStrength_nonneg strengths team1
      (fun p hp => h p (List.mem_append_left _ hp))
  have h2 : 0 ≤ teamStrength strengths team2 :=
    teamStrength_nonneg strengths team2
      (fun p hp => h p (List.mem_append_right _ hp))
  exact balanceScore_bounds h1 h2

/-- Witness for C7 at a concrete input. -/
theorem spec_C7_balance_score_bounds_witness :
    0 ≤ balanceScore (teamStrength [("A", 1/2), ("B", 1/2)] ["A"])
        (teamStrength [("A", 1/2), ("B", 1/2)] ["B"]) ∧
      balanceScore (teamStrength [("A", 1/2), ("B", 1/2)] ["A"])
        (teamStrength [("A", 1/2), ("B", 1/2)] ["B"]) ≤ 1 := by
  apply spec_C7_balance_score_bounds
  intro p hp
  rcases List.mem_append.mp hp with hp | hp <;> rw [List.mem_singleton.mp hp]
  · exact ⟨1/2, by simp [alookup], by norm_num, by norm_num⟩
  · exact ⟨1/2, by simp [alookup], by norm_num, by norm_num⟩

/-! Claim C8. -/

/-- C8: holding goal difference and matches played fixed, the clamped strength the
code assigns is monotone (non-decreasing) in the win rate. -/
theorem spec_C8_strength_monotone_in_win_rate (wr1 wr2 : ℚ) (mp : ℕ) (gd : ℤ)
    (hmp : 1 ≤ mp) (h : wr1 ≤ wr2) :
    clamp01 (strengthFormula wr1 mp gd) ≤ clamp01 (strengthFormula wr2 mp gd) := by
  apply clamp01_mono
  unfold strengthFormula
  have hew0 : (0 : ℚ) ≤ min ((mp : ℚ) / 10) 1 := by positivity
  have hb : wr1 / 100 * 0.7 + (min ((gd : ℚ) / ((max mp 1 : ℕ) : ℚ) / 3) 0.3 + 0.5) * 0.3
      ≤ wr2 / 100 * 0.7 + (min ((gd : ℚ) / ((max mp 1 : ℕ) : ℚ) / 3) 0.3 + 0.5) * 0.3 := by
    have : wr1 / 100 * 0.7 ≤ wr2 / 100 * 0.7 := by nlinarith
    linarith
  have := mul_le_mul_of_nonneg_right hb hew0
  dsimp only
  linarith

/-- Witness for C8 at a concrete input. -/
theorem spec_C8_strength_monotone_in_win_rate_witness :
    clamp01 (strengthFormula 30 3 0) ≤ clamp01 (strengthFormula 60 3 0) :=
  spec_C8_strength_monotone_in_win_rate 30 60 3 0 (by norm_num) (by norm_num)

/-! Claim C9. -/

/-- C9: with fewer available players than the match type requires (2 for singles,
4 otherwise), `generate_match_suggestions` returns the empty list. -/
theorem spec_C9_insufficient_players (data : StandcupData) (avail : List String)
    (match_type : String) (n : ℕ)
    (h : avail.length < if match_type = "singles" then 2 else 4) :
    generate_match_suggestions data avail match_type n = [] := by
  by_cases hs : match_type = "singles"
  · have hl : avail.length < 2 := by simpa [hs] using h
    simp [generate_match_suggestions, hl]
  · have hl : avail.length < 4 := by simpa [hs] using h
    by_cases h2 : avail.length < 2
    · simp [generate_match_suggestions, h2]
    · simp [generate_match_suggestions, h2, hs, hl]

/-- Witness for C9: one available player, singles, empty result. -/
theorem spec_C9_insufficient_players_witness :
    generate_match_suggestions emptyData ["p1"] "singles" 5 = [] :=
  spec_C9_insufficient_players emptyData ["p1"] "singles" 5 (by decide)

/-! Claim C10. -/

/-- C10: every match type other than "singles" is treated exactly like "doubles"
by `generate_match_suggestions`; an unrecognized match type is never an error. -/
theorem spec_C10_unknown_match_type (data : StandcupData) (avail : List String)
    (match_type : String) (n : ℕ) (h : match_type ≠ "singles") :
    generate_match_suggestions data avail match_type n =
      generate_match_suggestions data avail "doubles" n := by
  have hd : ("doubles" : String) ≠ "singles" := by decide
  unfold generate_match_suggestions
  simp [h, hd]

/-- Witness for C10 at a concrete unrecognized match type. -/
theorem spec_C10_unknown_match_type_witness :
    generate_match_suggestions emptyData ["a", "b", "c"] "foo" 7 =
      generate_match_suggestions emptyData ["a", "b", "c"] "doubles" 7 :=
  spec_C10_unknown_match_type emptyData ["a", "b", "c"] "foo" 7 (by decide)

/-! Concrete evaluations on the example history. -/

theorem memA_example : "A" ∈ statsPlayers exampleData := by
  rw [statsPlayers_mem_iff]
  exact ⟨mkMatch "m1" ["A"] ["B"] 1 0, by simp [exampleData], Or.inl (by simp [mkMatch])⟩

theorem winsA : winsOf exampleData "A" = 1 := by decide

theorem matchesA : matchesOf exampleData "A" = 3 := by decide

theorem gdA : goalDiffOf exampleData "A" = -1 := by decide

theorem strengthA :
    alookup (calculate_player_strengths exampleData) "A" = some (45493/100000) := by
  rw [lookup_strength exampleData "A" memA_example, winsA, matchesA, gdA]
  norm_num [clamp01, strengthFormula, round1, roundHalfEven, min_def, max_def]

/-! Claim C2. -/

/-- C2 fails as the spec states it: with the example history, player A has 1 win in
3 matches and goal difference -1; the code stores strength 0.45493 (its win rate
is first rounded to 33.3 by the pandas `.round(1)`), while the claimed formula
with the exact win-rate fraction gives 0.455. -/
theorem spec_C2_unrounded_formula_counterexample :
    winsOf exampleData "A" = 1 ∧ matchesOf exampleData "A" = 3 ∧
    goalDiffOf exampleData "A" = -1 ∧
    alookup (calculate_player_strengths exampleData) "A" = some (45493/100000) ∧
    specStrengthC2 1 3 (-1) = 91/200 ∧ (45493/100000 : ℚ) ≠ 91/200 :=
  ⟨winsA, matchesA, gdA, strengthA,
    by norm_num [specStrengthC2, min_def, max_def], by norm_num⟩

/-- C2 amended: for every player appearing in the history, the stored strength is
the clamp to [0.1, 1.0] of `base_strength * experience_weight + 0.5 * (1 -
experience_weight)`, where the win rate `100 * wins / matches_played` is first
rounded to one decimal place (as pandas does) before being fed to the formula. -/
theorem spec_C2_strength_formula (data : StandcupData) (p : String)
    (h : p ∈ statsPlayers data) :
    alookup (calculate_player_strengths data) p =
      some (clamp01 (strengthFormula
        (round1 (100 * (winsOf data p : ℚ) / (matchesOf data p : ℚ)))
        (matchesOf data p) (goalDiffOf data p))) := by
  have he : 100 * (winsOf data p : ℚ) / (matchesOf data p : ℚ)
      = (winsOf data p : ℚ) / (matchesOf data p : ℚ) * 100 := by ring
  rw [he]
  exact lookup_strength data p h

/-- Witness for the amended C2 at a concrete input. -/
theorem spec_C2_strength_formula_witness :
    alookup (calculate_player_strengths exampleData) "A" =
      some (clamp01 (strengthFormula
        (round1 (100 * (winsOf exampleData "A" : ℚ) / (matchesOf exampleData "A" : ℚ)))
        (matchesOf exampleData "A") (goalDiffOf exampleData "A"))) :=
  spec_C2_strength_formula exampleData "A" memA_example

/-- Witness for C5 at a concrete input: the stored strength of player A. -/
theorem spec_C5_strength_bounds_and_domain_witness :
    (0.1 : ℚ) ≤ 45493/100000 ∧ (45493/100000 : ℚ) ≤ 1 :=
  (spec_C5_strength_bounds_and_domain exampleData "A").2 (45493/100000) strengthA

/-! Counting lemmas for claim C3. -/

theorem sum_map_add_nat {α : Type} (l : List α) (f g : α → ℕ) :
    (l.map (fun a => f a + g a)).sum = (l.map f).sum + (l.map g).sum := by
  induction l with
  | nil => simp
  | cons a t ih => simp [ih]; omega

theorem sum_indicator_one (ps : List String) (hnd : ps.Nodup) (a : String)
    (ha : a ∈ ps) :
    (ps.map (fun p => if a = p then (1 : ℕ) else 0)).sum = 1 := by
  induction ps with
  | nil => cases ha
  | cons q t ih =>
    rcases List.mem_cons.mp ha with rfl | hat
    · have hz : (t.map (fun p => if a = p then (1 : ℕ) else 0)).sum = 0 := by
        apply List.sum_eq_zero
        intro x hx
        rcases List.mem_map.mp hx with ⟨p, hp, rfl⟩
        have hne : a ≠ p := fun he => (List.nodup_cons.mp hnd).1 (he ▸ hp)
        simp [hne]
      simp [hz]
    · have haq : a ≠ q := by
        intro he
        subst he
        exact (List.nodup_cons.mp hnd).1 hat
      have ht := ih (List.nodup_cons.mp hnd).2 hat
      simp [haq, ht]

theorem sum_countP_partition (ps : List String) (hnd : ps.Nodup)
    (l : List PlayerMatchRow)
    (hcov : ∀ r ∈ l, r.won = true → r.player_id ∈ ps) :
    (ps.map (fun p => l.countP (fun r => r.won && r.player_id == p))).sum
      = l.countP (fun r => r.won) := by
  induction l with
  | nil => simp
  | cons r t ih =>
    have hcov2 : ∀ x ∈ t, x.won = true → x.player_id ∈ ps :=
      fun x hx hw => hcov x (List.mem_cons_of_mem _ hx) hw
    have hmap : ∀ p : String, (r :: t).countP (fun x => x.won && x.player_id == p)
        = t.countP (fun x => x.won && x.player_id == p)
          + (if (r.won && r.player_id == p) = true then 1 else 0) := by
      intro p
      rw [List.countP_cons]
    simp only [hmap]
    rw [sum_map_add_nat, ih hcov2, List.countP_cons]
    congr 1
    by_cases hw : r.won
    · have hp : r.player_id ∈ ps := hcov r (List.mem_cons_self r t) hw
      simp only [hw, Bool.true_and, if_pos]
      simpa using sum_indicator_one ps hnd r.player_id hp
    · have hw2 : r.won = false := Bool.eq_false_iff.mpr hw
      simp [hw2]

theorem statsPlayers_nodup (data : StandcupData) : (statsPlayers data).Nodup :=
  (List.mergeSort_perm _ _).nodup_iff.mpr (List.nodup_dedup _)

theorem row_player_mem (data : StandcupData) (r : PlayerMatchRow)
    (hr : r ∈ to_player_match data) : r.player_id ∈ statsPlayers data := by
  unfold statsPlayers
  rw [List.mem_mergeSort, List.mem_dedup]
  exact List.mem_map_of_mem _ hr

theorem stats_wins_eq (data : StandcupData) :
    (calculate_player_stats data).map (fun s => s.wins)
      = (statsPlayers data).map (fun p =>
          (to_player_match data).countP (fun r => r.won && r.player_id == p)) := by
  unfold calculate_player_stats
  rw [List.map_map]
  congr 1
  funext p
  show (((to_player_match data).filter (fun r => r.player_id == p)).filter
      (fun r => r.won)).length = _
  rw [List.filter_filter, ← List.countP_eq_length_filter]

theorem countP_won_rows (data : StandcupData) :
    (to_player_match data).countP (fun r => r.won)
      = (data.matchList.map winWeight).sum := by
  obtain ⟨ps, ms⟩ := data
  unfold to_player_match
  dsimp only
  induction ms with
  | nil => simp
  | cons m t ih =>
    rw [List.flatMap_cons, List.countP_append, List.map_cons, List.sum_cons, ih]
    congr 1
    rw [List.countP_append, List.countP_map, List.countP_map]
    unfold winWeight SMatch.winner_team
    by_cases h1 : m.team1_score > m.team2_score
    · simp [h1, Function.comp_def]
    · by_cases h2 : m.team2_score > m.team1_score
      · simp [h1, h2, Function.comp_def]
      · simp [h1, h2, Function.comp_def]

theorem totalWins_eq (data : StandcupData) :
    totalWins data = (data.matchList.map winWeight).sum := by
  unfold totalWins
  rw [stats_wins_eq,
    sum_countP_partition (statsPlayers data) (statsPlayers_nodup data)
      (to_player_match data) (fun r hr _ => row_player_mem data r hr),
    countP_won_rows]

/-! Claim C3. -/

/-- C3 fails as stated: for the example doubles history of one match (A and B beat
C and D), the sum of wins over all players is 2, which exceeds the history length
1 and differs from the count of matches with a strict winner (also 1), because a
winning doubles team contributes one win per member. -/
theorem spec_C3_total_wins_counterexample :
    totalWins exampleDoubles = 2 ∧ exampleDoubles.matchList.length = 1 ∧
    strictWinnerMatches exampleDoubles = 1 ∧
    ¬ (totalWins exampleDoubles ≤ exampleDoubles.matchList.length ∧
       totalWins exampleDoubles = strictWinnerMatches exampleDoubles) := by
  have h2 : totalWins exampleDoubles = 2 := by
    rw [totalWins_eq]
    decide
  refine ⟨h2, by decide, by decide, ?_⟩
  rintro ⟨hle, -⟩
  rw [h2] at hle
  revert hle
  decide

/-- C3 amended: the sum over all players of `PlayerStats.wins` equals the sum over
matches of the winning team's player count (0 for a tie); with teams of at most 2
players it is therefore at most `2 * len(H)` rather than `len(H)`. -/
theorem spec_C3_total_wins (data : StandcupData)
    (h : ∀ m ∈ data.matchList,
      m.team1.players.length ≤ 2 ∧ m.team2.players.length ≤ 2) :
    totalWins data = (data.matchList.map winWeight).sum ∧
    totalWins data ≤ 2 * data.matchList.length := by
  refine ⟨totalWins_eq data, ?_⟩
  rw [totalWins_eq]
  have hb : ∀ m ∈ data.matchList, winWeight m ≤ 2 := by
    intro m hm
    unfold winWeight
    split_ifs
    · exact (h m hm).1
    · exact (h m hm).2
    · norm_num
  calc (data.matchList.map winWeight).sum
      ≤ (data.matchList.map (fun _ => 2)).sum := List.sum_le_sum hb
    _ = 2 * data.matchList.length := by
        simp [List.map_const', List.sum_replicate, Nat.mul_comm]

/-- Witness for the amended C3 at a concrete input. -/
theorem spec_C3_total_wins_witness :
    totalWins exampleDoubles = (exampleDoubles.matchList.map winWeight).sum ∧
    totalWins exampleDoubles ≤ 2 * exampleDoubles.matchList.length :=
  spec_C3_total_wins exampleDoubles (by decide)

/-! Pairing-history lemmas for claim C6. -/

theorem alookup_bumpInner (c : CountMap) (a x : String) :
    alookup (bumpInner c a) x =
      if x = a then some (((alookup c a).getD 0) + 1) else alookup c x := by
  induction c with
  | nil =>
    by_cases hx : x = a
    · subst hx
      simp [bumpInner, alookup]
    · have hx2 : ¬ a = x := fun h => hx h.symm
      simp [bumpInner, alookup, hx, hx2]
  | cons kv rest ih =>
    obtain ⟨k, v⟩ := kv
    by_cases hk : k = a
    · subst hk
      by_cases hx : x = k
      · subst hx
        simp [bumpInner, alookup]
      · have hx2 : ¬ k = x := fun h => hx h.symm
        simp [bumpInner, alookup, hx, hx2]
    · by_cases hx : k = x
      · have hx2 : ¬ x = a := fun h => hk (hx.trans h)
        simp [bumpInner, alookup, hk, hx, hx2]
      · simp [bumpInner, alookup, hk, hx, ih]

theorem find2_bump (m : NestedMap) (a b x y : String) :
    find2 (bump m a b) x y =
      if x = a ∧ y = b then some (((find2 m a b).getD 0) + 1) else find2 m x y := by
  induction m with
  | nil =>
    by_cases hx : x = a
    · subst hx
      by_cases hy : y = b
      · subst hy
        simp [bump, find2, alookup]
      · have hy2 : ¬ b = y := fun h => hy h.symm
        simp [bump, find2, alookup, hy, hy2]
    · have hx2 : ¬ a = x := fun h => hx h.symm
      simp [bump, find2, alookup, hx, hx2]
  | cons kv rest ih =>
    obtain ⟨k, inner⟩ := kv
    by_cases hk : k = a
    · subst hk
      by_cases hx : x = k
      · subst hx
        simp only [bump, if_pos rfl, find2, alookup, ite_true, eq_self_iff_true,
          true_and]
        rw [alookup_bumpInner]
      · have hx2 : ¬ k = x := fun h => hx h.symm
        have hx3 : ¬ (x = k ∧ y = b) := fun h => hx h.1
        simp [bump, find2, alookup, hx2, hx3]
    · by_cases hx : k = x
      · have hx2 : ¬ (x = a ∧ y = b) := fun hc => hk (hx.trans hc.1)
        have hxa : ¬ x = a := fun hc => hk (hx.trans hc)
        simp [bump, find2, alookup, hk, hx, hxa, hx2]
      · have hk2 : ¬ k = a := hk
        simp only [bump, if_neg hk2, find2, alookup, if_neg hx]
        have := ih
        unfold find2 at this
        by_cases hxy : x = a ∧ y = b
        · rw [if_pos hxy] at this ⊢
          rw [this]
        · rw [if_neg hxy] at this ⊢
          exact this

theorem symmMap_nil : SymmMap [] := fun _ _ => rfl

theorem symmMap_bumpBoth {m : NestedMap} (h : SymmMap m) (a b : String) :
    SymmMap (bumpBoth m a b) := by
  intro x y
  simp only [bumpBoth, find2_bump]
  by_cases h1 : x = b ∧ y = a
  · by_cases h2 : y = b ∧ x = a
    · rw [if_pos h1, if_pos h2]
    · rw [if_pos h1, if_neg h2, if_pos (show y = a ∧ x = b from ⟨h1.2, h1.1⟩)]
      have hab : ¬ (b = a ∧ a = b) := by
        intro hc
        exact h2 ⟨h1.2.trans hc.2, h1.1.trans hc.1⟩
      rw [if_neg hab, h b a]
  · by_cases h2 : y = b ∧ x = a
    · rw [if_neg h1, if_pos h2, if_pos (show x = a ∧ y = b from ⟨h2.2, h2.1⟩)]
      have hab : ¬ (b = a ∧ a = b) := by
        intro hc
        exact h1 ⟨h2.2.trans hc.2, h2.1.trans hc.1⟩
      rw [if_neg hab, h a b]
    · rw [if_neg h1, if_neg h2]
      have h3 : ¬ (x = a ∧ y = b) := fun hc => h2 ⟨hc.2, hc.1⟩
      have h4 : ¬ (y = a ∧ x = b) := fun hc => h1 ⟨hc.2, hc.1⟩
      rw [if_neg h3, if_neg h4]
      exact h x y

theorem symmMap_addTeammates {tc : NestedMap} (h : SymmMap tc) (team : List String) :
    SymmMap (addTeammates tc team) := by
  rcases team with _ | ⟨p1, _ | ⟨p2, _ | ⟨p3, t⟩⟩⟩
  · exact h
  · exact h
  · exact symmMap_bumpBoth h p1 p2
  · exact h

theorem symmMap_addOpponents {oc : NestedMap} (h : SymmMap oc)
    (team1 team2 : List String) : SymmMap (addOpponents oc team1 team2) := by
  unfold addOpponents
  induction team1 generalizing oc with
  | nil => exact h
  | cons p t ih =>
    rw [List.foldl_cons]
    apply ih
    clear ih
    induction team2 generalizing oc with
    | nil => exact h
    | cons q s ih2 =>
      rw [List.foldl_cons]
      exact ih2 (symmMap_bumpBoth h p q)

theorem symmMap_analyze (data : StandcupData) :
    SymmMap (analyze_pairing_history data).teammates ∧
    SymmMap (analyze_pairing_history data).opponents := by
  unfold analyze_pairing_history
  suffices hgen : ∀ (ms : List SMatch) (ph : PairingHistory),
      SymmMap ph.teammates → SymmMap ph.opponents →
      SymmMap ((ms.foldl (fun ph m =>
        { teammates := addTeammates (addTeammates ph.teammates m.team1.players)
            m.team2.players,
          opponents := addOpponents ph.opponents m.team1.players m.team2.players })
        ph).teammates) ∧
      SymmMap ((ms.foldl (fun ph m =>
        { teammates := addTeammates (addTeammates ph.teammates m.team1.players)
            m.team2.players,
          opponents := addOpponents ph.opponents m.team1.players m.team2.players })
        ph).opponents) by
    exact hgen data.matchList { teammates := [], opponents := [] } symmMap_nil symmMap_nil
  intro ms
  induction ms with
  | nil => intro ph h1 h2; exact ⟨h1, h2⟩
  | cons m t ih =>
    intro ph h1 h2
    rw [List.foldl_cons]
    exact ih _ (symmMap_addTeammates (symmMap_addTeammates h1 _) _)
      (symmMap_addOpponents h2 _ _)

/-! Claim C6. -/

/-- C6: for every match history, the teammate-count and opponent-count tables built
by `analyze_pairing_history` are symmetric: the nested lookup of (p1, p2) gives
the same result (including entry existence) as the lookup of (p2, p1). -/
theorem spec_C6_pairing_history_symmetric (data : StandcupData) (p1 p2 : String) :
    find2 (analyze_pairing_history data).teammates p1 p2
      = find2 (analyze_pairing_history data).teammates p2 p1 ∧
    find2 (analyze_pairing_history data).opponents p1 p2
      = find2 (analyze_pairing_history data).opponents p2 p1 :=
  ⟨(symmMap_analyze data).1 p1 p2, (symmMap_analyze data).2 p1 p2⟩

/-! Helper lemmas for claim C4. -/

theorem team_balance_reasoning_ne (r : String) :
    "Team balance: " ++ r ≠ "Missing player strength data" := by
  intro hc
  have h2 := congrArg String.data hc
  rw [String.data_append] at h2
  have h3 : "Team balance: ".data
      = ['T','e','a','m',' ','b','a','l','a','n','c','e',':',' '] := rfl
  have h4 : "Missing player strength data".data
      = ['M','i','s','s','i','n','g',' ','p','l','a','y','e','r',' ','s','t','r',
         'e','n','g','t','h',' ','d','a','t','a'] := rfl
  rw [h3, h4] at h2
  simp at h2

theorem strengths_empty_of_no_matches (data : StandcupData)
    (hemp : data.matchList = []) : calculate_player_strengths data = [] := by
  rw [strengths_keyed]
  have hsp : statsPlayers data = [] := by
    simp [statsPlayers, to_player_match, hemp]
  rw [hsp]
  rfl

theorem generate_singles_eq (data : StandcupData) (avail : List String) (n : ℕ)
    (h2 : ¬ avail.length < 2) :
    generate_match_suggestions data avail "singles" n =
      ((generate_singles_suggestions avail (calculate_player_strengths data)
          (analyze_pairing_history data)
          (get_max_pairings (analyze_pairing_history data))).mergeSort
        (fun a b => decide (b.score ≤ a.score))).take n := by
  unfold generate_match_suggestions
  simp [h2]

theorem singles_suggestion_shape (avail : List String) (ph : PairingHistory)
    (mp : ℕ) (sug : MatchSuggestion)
    (hs : sug ∈ generate_singles_suggestions avail [] ph mp) :
    sug.score = 0 ∧ sug.reasoning = "Missing player strength data" := by
  unfold generate_singles_suggestions at hs
  rcases List.mem_map.mp hs with ⟨pq, hpq, rfl⟩
  constructor <;> simp [score_match_quality, alookup]

theorem combinations2_ne_nil {α : Type} (l : List α) (h : 2 ≤ l.length) :
    combinations2 l ≠ [] := by
  rcases l with _ | ⟨x, _ | ⟨y, t⟩⟩
  · simp at h
  · simp at h
  · simp [combinations2]

/-! Claim C4. -/

/-- C4: `score_match_quality` returns score 0 with rationale exactly "Missing
player strength data" iff some player of either team lacks a strength entry (a
defined fallback, not an error); with an empty match history the strengths map is
empty, so every singles candidate receives that fallback, yet
`generate_match_suggestions` still returns a non-empty suggestion list whenever
at least 2 players are available and at least 1 suggestion is requested. -/
theorem spec_C4_missing_strength_fallback :
    (∀ (team1 team2 : List String) (strengths : List (String × ℚ))
        (ph : PairingHistory) (mp : ℕ),
      score_match_quality team1 team2 strengths ph mp
          = (0, "Missing player strength data") ↔
        ∃ p ∈ team1 ++ team2, alookup strengths p = none) ∧
    (∀ (data : StandcupData) (avail : List String) (n : ℕ),
      data.matchList = [] → 2 ≤ avail.length → 1 ≤ n →
      generate_match_suggestions data avail "singles" n ≠ [] ∧
      ∀ sug ∈ generate_match_suggestions data avail "singles" n,
        sug.score = 0 ∧ sug.reasoning = "Missing player strength data") := by
  constructor
  · intro t1 t2 s ph mp
    unfold score_match_quality
    by_cases hc : (t1 ++ t2).all (fun p => (alookup s p).isSome)
    · rw [if_neg (not_not_intro hc)]
      constructor
      · intro he
        exact absurd (congrArg Prod.snd he) (team_balance_reasoning_ne _)
      · rintro ⟨p, hp, hnone⟩
        have := List.all_eq_true.mp hc p hp
        rw [hnone] at this
        cases this
    · rw [if_pos hc]
      constructor
      · intro _
        have hna : ¬ ∀ p ∈ t1 ++ t2, (alookup s p).isSome = true := by
          rw [← List.all_eq_true]
          exact hc
        push_neg at hna
        rcases hna with ⟨p, hp, hns⟩
        exact ⟨p, hp, Option.not_isSome_iff_eq_none.mp hns⟩
      · intro _
        rfl
  · intro data avail n hemp h2 hn
    have hlt : ¬ avail.length < 2 := not_lt.mpr h2
    have hstr := strengths_empty_of_no_matches data hemp
    rw [generate_singles_eq data avail n hlt, hstr]
    set L := generate_singles_suggestions avail []
      (analyze_pairing_history data) (get_max_pairings (analyze_pairing_history data))
      with hL
    constructor
    · intro hc
      rcases List.take_eq_nil_iff.mp hc with hc2 | hc2
      · omega
      · have hlen := congrArg List.length hc2
        rw [List.length_mergeSort] at hlen
        have hLnil : L = [] := List.eq_nil_of_length_eq_zero hlen
        have hcomb : combinations2 avail ≠ [] := combinations2_ne_nil avail h2
        apply hcomb
        have := congrArg List.length hLnil
        rw [hL] at this
        unfold generate_singles_suggestions at this
        rw [List.length_map] at this
        exact List.eq_nil_of_length_eq_zero this
    · intro sug hs
      have hs2 : sug ∈ L.mergeSort (fun a b => decide (b.score ≤ a.score)) :=
        List.mem_of_mem_take hs
      have hs3 : sug ∈ L := List.mem_mergeSort.mp hs2
      exact singles_suggestion_shape avail _ _ sug hs3

/-- Witness for C4 at concrete inputs: a candidate with empty strengths gets the
fallback, and the no-history generator still returns suggestions. -/
theorem spec_C4_missing_strength_fallback_witness :
    score_match_quality ["A"] ["B"] [] { teammates := [], opponents := [] } 0
        = (0, "Missing player strength data") ∧
      generate_match_suggestions emptyData ["A", "B"] "singles" 5 ≠ [] := by
  constructor
  · exact (spec_C4_missing_strength_fallback.1 ["A"] ["B"] []
      { teammates := [], opponents := [] } 0).mpr ⟨"A", by simp, rfl⟩
  · exact (spec_C4_missing_strength_fallback.2 emptyData ["A", "B"] 5 rfl
      (by norm_num) (by norm_num)).1

/-! Order lemmas about the embedded Python string comparison, for claim C1. -/

theorem charToNat_inj {c d : Char} (h : c.toNat = d.toNat) : c = d := by
  have h2 : c.val.toBitVec.toNat = d.val.toBitVec.toNat := h
  have h3 : c.val.toBitVec = d.val.toBitVec := BitVec.toNat_injective h2
  have h4 : c.val = d.val := by
    cases hc : c.val with
    | mk bv => cases hd : d.val with
      | mk bv2 => simp_all
  exact Char.eq_of_val_eq h4

theorem lexLt_asymm (l : List Char) : ∀ m, lexLt l m = true → lexLt m l = false := by
  induction l with
  | nil =>
    intro m h
    cases m with
    | nil => simp [lexLt] at h
    | cons d ds => simp [lexLt]
  | cons c cs ih =>
    intro m h
    cases m with
    | nil => simp [lexLt] at h
    | cons d ds =>
      simp only [lexLt] at h ⊢
      rcases Bool.or_eq_true_iff.mp h with h1 | h1
      · have hlt : c.toNat < d.toNat := by simpa using h1
        have h2 : ¬ d.toNat < c.toNat := by omega
        have h3 : ¬ d.toNat = c.toNat := by omega
        simp [h2, h3]
      · have hc := Bool.and_eq_true_iff.mp h1
        have he : c.toNat = d.toNat := by simpa using hc.1
        have h5 : ¬ d.toNat < c.toNat := by omega
        simp [h5, he.symm, ih ds hc.2]

theorem lexLt_conn (l : List Char) :
    ∀ m, lexLt l m = false → lexLt m l = false → l = m := by
  induction l with
  | nil =>
    intro m h1 h2
    cases m with
    | nil => rfl
    | cons d ds => simp [lexLt] at h1
  | cons c cs ih =>
    intro m h1 h2
    cases m with
    | nil => simp [lexLt] at h2
    | cons d ds =>
      simp only [lexLt, Bool.or_eq_false_iff, Bool.and_eq_false_iff,
        decide_eq_false_iff_not] at h1 h2
      have he : c.toNat = d.toNat := by omega
      have hcs : lexLt cs ds = false := by
        rcases h1.2 with h | h
        · exact absurd he h
        · exact h
      have hds : lexLt ds cs = false := by
        rcases h2.2 with h | h
        · exact absurd he.symm h
        · exact h
      rw [charToNat_inj he, ih ds hcs hds]

theorem strLt_asymm {x y : String} (h : strLt x y = true) : strLt y x = false :=
  lexLt_asymm _ _ h

theorem strLt_irrefl (x : String) : strLt x x = false := by
  unfold strLt
  have : ∀ l : List Char, lexLt l l = false := by
    intro l
    induction l with
    | nil => rfl
    | cons c cs ih => simp [lexLt, ih]
  exact this _

theorem str_eq_of_not_lt {x y : String} (h1 : strLt x y = false)
    (h2 : strLt y x = false) : x = y :=
  String.ext (lexLt_conn _ _ h1 h2)

theorem strLe_total (x y : String) : strLe x y = true ∨ strLe y x = true := by
  by_cases h1 : strLt x y = true
  · left
    simp [strLe, h1]
  · by_cases h2 : strLt y x = true
    · right
      simp [strLe, h2]
    · have he : x = y :=
        str_eq_of_not_lt (Bool.not_eq_true _ |>.mp h1) (Bool.not_eq_true _ |>.mp h2)
      left
      simp [strLe, he]

theorem strLe_antisymm {x y : String} (h1 : strLe x y = true)
    (h2 : strLe y x = true) : x = y := by
  unfold strLe at h1 h2
  rcases Bool.or_eq_true_iff.mp h1 with hlt | heq
  · rcases Bool.or_eq_true_iff.mp h2 with hlt2 | heq2
    · rw [strLt_asymm hlt] at hlt2
      cases hlt2
    · exact (by simpa using heq2 : y = x).symm
  · simpa using heq

theorem pairLE_total (x y : String × String) : pairLE x y = true ∨ pairLE y x = true := by
  unfold pairLE
  by_cases h1 : strLt x.1 y.1 = true
  · left
    simp [h1]
  · by_cases h2 : strLt y.1 x.1 = true
    · right
      simp [h2]
    · have he : x.1 = y.1 :=
        str_eq_of_not_lt (Bool.not_eq_true _ |>.mp h1) (Bool.not_eq_true _ |>.mp h2)
      rcases strLe_total x.2 y.2 with h3 | h3
      · left
        simp [he, h3]
      · right
        simp [he, h3]

theorem pairLE_antisymm {x y : String × String} (h1 : pairLE x y = true)
    (h2 : pairLE y x = true) : x = y := by
  unfold pairLE at h1 h2
  rcases Bool.or_eq_true_iff.mp h1 with ha | ha
  · rcases Bool.or_eq_true_iff.mp h2 with hb | hb
    · rw [strLt_asymm ha] at hb
      cases hb
    · have hyx := Bool.and_eq_true_iff.mp hb
      have he : y.1 = x.1 := by simpa using hyx.1
      rw [he, strLt_irrefl] at ha
      cases ha
  · have hxy := Bool.and_eq_true_iff.mp ha
    have he : x.1 = y.1 := by simpa using hxy.1
    rcases Bool.or_eq_true_iff.mp h2 with hb | hb
    · rw [he, strLt_irrefl] at hb
      cases hb
    · have hyx := Bool.and_eq_true_iff.mp hb
      have he2 : x.2 = y.2 := strLe_antisymm hxy.2 hyx.2
      cases x
      cases y
      simp_all

/-! Signature lemmas for the doubles dedup, claim C1. -/

theorem normTeam_cases (t : String × String) :
    normTeam t = t ∨ normTeam t = (t.2, t.1) := by
  unfold normTeam
  split
  · left
    rfl
  · right
    rfl

theorem normTeam_eq_imp {p q r s : String}
    (h : normTeam (p, q) = normTeam (r, s)) :
    (p = r ∧ q = s) ∨ (p = s ∧ q = r) := by
  rcases normTeam_cases (p, q) with h1 | h1 <;>
    rcases normTeam_cases (r, s) with h2 | h2 <;>
      rw [h1, h2] at h <;>
        simp only [Prod.mk.injEq] at h
  · exact Or.inl h
  · exact Or.inr h
  · exact Or.inr ⟨h.2, h.1⟩
  · exact Or.inl ⟨h.2, h.1⟩

theorem normSig_cases (t u : String × String) :
    normSig t u = (normTeam t, normTeam u) ∨
      normSig t u = (normTeam u, normTeam t) := by
  unfold normSig
  dsimp only
  split
  · left
    rfl
  · right
    rfl

theorem normSig_comm (t u : String × String) : normSig t u = normSig u t := by
  unfold normSig
  by_cases h1 : pairLE (normTeam t) (normTeam u) = true
  · by_cases h2 : pairLE (normTeam u) (normTeam t) = true
    · have he := pairLE_antisymm h1 h2
      rw [if_pos h1, if_pos h2, he]
    · rw [if_pos h1, if_neg h2]
  · have h2 : pairLE (normTeam u) (normTeam t) = true := by
      rcases pairLE_total (normTeam t) (normTeam u) with h | h
      · exact absurd h h1
      · exact h
    rw [if_neg h1, if_pos h2]

theorem normSig_eq_imp {t u t2 u2 : String × String}
    (h : normSig t u = normSig t2 u2) :
    (normTeam t = normTeam t2 ∧ normTeam u = normTeam u2) ∨
      (normTeam t = normTeam u2 ∧ normTeam u = normTeam t2) := by
  rcases normSig_cases t u with h1 | h1 <;>
    rcases normSig_cases t2 u2 with h2 | h2 <;>
      rw [h1, h2] at h <;>
        simp only [Prod.mk.injEq] at h
  · exact Or.inl h
  · exact Or.inr h
  · exact Or.inr ⟨h.2, h.1⟩
  · exact Or.inl ⟨h.2, h.1⟩

theorem normSig_ne_1 {a b c d : String} (hab : a ≠ b) (hac : a ≠ c) (had : a ≠ d)
    (hbc : b ≠ c) (_hbd : b ≠ d) (_hcd : c ≠ d) :
    normSig (a, b) (c, d) ≠ normSig (a, c) (b, d) := by
  intro h
  rcases normSig_eq_imp h with ⟨h1, -⟩ | ⟨h1, -⟩
  · rcases normTeam_eq_imp h1 with ⟨-, h3⟩ | ⟨h2, -⟩
    · exact hbc h3
    · exact hac h2
  · rcases normTeam_eq_imp h1 with ⟨h2, -⟩ | ⟨h2, -⟩
    · exact hab h2
    · exact had h2

theorem normSig_ne_2 {a b c d : String} (hab : a ≠ b) (hac : a ≠ c) (had : a ≠ d)
    (_hbc : b ≠ c) (hbd : b ≠ d) (_hcd : c ≠ d) :
    normSig (a, b) (c, d) ≠ normSig (a, d) (b, c) := by
  intro h
  rcases normSig_eq_imp h with ⟨h1, -⟩ | ⟨h1, -⟩
  · rcases normTeam_eq_imp h1 with ⟨-, h3⟩ | ⟨h2, -⟩
    · exact hbd h3
    · exact had h2
  · rcases normTeam_eq_imp h1 with ⟨h2, -⟩ | ⟨h2, -⟩
    · exact hab h2
    · exact hac h2

theorem normSig_ne_3 {a b c d : String} (hab : a ≠ b) (hac : a ≠ c) (had : a ≠ d)
    (_hbc : b ≠ c) (_hbd : b ≠ d) (hcd : c ≠ d) :
    normSig (a, c) (b, d) ≠ normSig (a, d) (b, c) := by
  intro h
  rcases normSig_eq_imp h with ⟨h1, -⟩ | ⟨h1, -⟩
  · rcases normTeam_eq_imp h1 with ⟨-, h3⟩ | ⟨h2, -⟩
    · exact hcd h3
    · exact had h2
  · rcases normTeam_eq_imp h1 with ⟨h2, -⟩ | ⟨h2, -⟩
    · exact hab h2
    · exact hac h2

/-! Claim C1. -/

/-- C1: for every call to the doubles enumeration with 4 pairwise-distinct
available players, exactly 3 candidate suggestions are produced before top-N
truncation — one per unordered split of the 4 players into two teams of 2 — the
mirrored (team1, team2)/(team2, team1) duplicates being removed by the
sort-each-team-then-sort-the-pair signature. -/
theorem spec_C1_doubles_dedup (a b c d : String)
    (strengths : List (String × ℚ)) (ph : PairingHistory) (mp : ℕ)
    (hab : a ≠ b) (hac : a ≠ c) (had : a ≠ d) (hbc : b ≠ c) (hbd : b ≠ d)
    (hcd : c ≠ d) :
    (generate_doubles_suggestions [a, b, c, d] strengths ph mp).length = 3 := by
  have hba := hab.symm
  have hca := hac.symm
  have hda := had.symm
  have hcb := hbc.symm
  have hdb := hbd.symm
  have hdc := hcd.symm
  have hs1 := normSig_ne_1 hab hac had hbc hbd hcd
  have hs2 := normSig_ne_2 hab hac had hbc hbd hcd
  have hs3 := normSig_ne_3 hab hac had hbc hbd hcd
  have hs1b := hs1.symm
  have hs2b := hs2.symm
  have hs3b := hs3.symm
  simp [generate_doubles_suggestions, doublesOuter, doublesInner, combinations2,
    hab, hac, had, hbc, hbd, hcd, hba, hca, hda, hcb, hdb, hdc,
    hs1, hs2, hs3, hs1b, hs2b, hs3b, normSig_comm]

/-- Witness for C1 at concrete players. -/
theorem spec_C1_doubles_dedup_witness :
    (generate_doubles_suggestions ["a", "b", "c", "d"] []
      { teammates := [], opponents := [] } 0).length = 3 :=
  spec_C1_doubles_dedup "a" "b" "c" "d" [] { teammates := [], opponents := [] } 0
    (by decide) (by decide) (by decide) (by decide) (by decide) (by decide)

end Standcup
